import Mathlib

/-!
Formal model of the resumable report / sync logic of the Shopify
restocking-report app, centred on `app/routes/app.markdown-report.jsx`:
the sales-map merge (`mergeSalesMap`), the chunked report runner
(`continueReportRun`), the Stocky receipt upsert (`upsertReceiptForSku`),
the 429-backoff fetcher (`fetchStockyPurchaseOrdersPage`), the full-sync
chunk driver (`runFullSyncChunk`), the capped variant scan
(`fetchAllActiveVariants`), and the route `action` dispatcher.

Modelling conventions:
* JavaScript wall-clock loop budgets (`Date.now() - startedAt < MAX_MS`)
  are modelled by a `fuel : Nat` argument counting how many loop
  iterations the elapsed-time check admits; the check always passes on
  loop entry, so real executions have `1 ≤ fuel`.
* Upstream HTTP endpoints are modelled as oracle functions (cursor or
  offset to response); database rows are explicit values threaded
  through the functions, and each function additionally reports the
  writes / requests it performed so that theorems can speak about them.
* JS timestamps handled through `Date` / `getTime` are modelled as
  `Int` epoch milliseconds; ISO-8601 timestamp strings stay `String`
  and are compared lexically exactly as the JS `<` / `>` operators do.
* JS string falsiness (`!s` true for `null`/`undefined`/`""`) is
  modelled by `strTruthy : Option String → Bool`.
-/

namespace RestockingReport

/-! ### Small JS-semantics helpers -/

/-- Truthiness of an optional string: `none` and `some ""` are falsy. -/
def strTruthy : Option String → Bool
  | some s => !(s == "")
  | none => false

/-- JS `x || null` on an optional string. -/
def orNull (c : Option String) : Option String :=
  if strTruthy c then c else none

/-- JS `a || b || null` on optional strings. -/
def jsOr (a b : Option String) : Option String :=
  if strTruthy a then a else if strTruthy b then b else none

/-- JS `String(x || d)` where a missing or empty `x` falls back to `d`. -/
def jsOrStr (a : Option String) (d : String) : String :=
  match a with
  | some s => if s = "" then d else s
  | none => d

/-- Association-list lookup (JS object property read), first match wins. -/
def alookup {α β : Type} [DecidableEq α] : List (α × β) → α → Option β
  | [], _ => none
  | (k0, v0) :: rest, k => if k0 = k then some v0 else alookup rest k

/-- Association-list write (JS object property assignment). -/
def aset {α β : Type} [DecidableEq α] : List (α × β) → α → β → List (α × β)
  | [], k, v => [(k, v)]
  | (k0, v0) :: rest, k, v =>
      if k0 = k then (k, v) :: rest else (k0, v0) :: aset rest k v

/-! ### Sales map merge (`mergeSalesMap`) -/

/-- One aggregate value of the `salesByVariant` JSON map. -/
structure SalesAgg where
  qtySold : Int
  firstSoldDate : Option String
  lastSoldDate : Option String
  deriving Repr, DecidableEq

/-- One GraphQL order line item (`lineItems.edges[].node`). -/
structure LineItem where
  variantId : Option String
  quantity : Int
  deriving Repr, DecidableEq

/-- One GraphQL order edge (`orders.edges[].node`). -/
structure OrderEdge where
  createdAt : Option String
  lineItems : List LineItem
  deriving Repr, DecidableEq

/-- The `salesByVariant` map, keyed by variant id. -/
abbrev SalesMap := List (String × SalesAgg)

/-- The `firstSoldDate` update of `mergeSalesMap`:
`if (!first || createdAt < first) first = createdAt`. -/
def updFirst (c : String) (f : Option String) : Option String :=
  match f with
  | none => some c
  | some f0 => if f0 = "" then some c else if c < f0 then some c else some f0

/-- The `lastSoldDate` update of `mergeSalesMap`:
`if (!last || createdAt > last) last = createdAt`. -/
def updLast (c : String) (l : Option String) : Option String :=
  match l with
  | none => some c
  | some l0 => if l0 = "" then some c else if l0 < c then some c else some l0

/-- The aggregate produced for one line item of one order: initialise on
first sight (`qtySold = 0`, dates `createdAt || null`), add the
quantity, then extend the date bounds when `createdAt` is truthy. -/
def aggAfter (createdAt : Option String) (prior : Option SalesAgg) (qty : Int) :
    SalesAgg :=
  let base : SalesAgg :=
    match prior with
    | some a => a
    | none =>
        { qtySold := 0, firstSoldDate := orNull createdAt
          lastSoldDate := orNull createdAt }
  let a1 : SalesAgg := { base with qtySold := base.qtySold + qty }
  match createdAt with
  | some c =>
      if c = "" then a1
      else
        { a1 with firstSoldDate := updFirst c a1.firstSoldDate
                  lastSoldDate := updLast c a1.lastSoldDate }
  | none => a1

/-- The body of the inner `for (const li of lineItems)` loop of
`mergeSalesMap`: line items with a missing or empty variant id are
skipped (`if (!variantId) continue`). -/
def applyLineItem (createdAt : Option String) (m : SalesMap) (li : LineItem) :
    SalesMap :=
  match li.variantId with
  | none => m
  | some vid =>
      if vid = "" then m
      else aset m vid (aggAfter createdAt (alookup m vid) li.quantity)

/-- `mergeSalesMap(existingJson, ordersEdges)`: fold every line item of
every order edge into the sales map. -/
def mergeSalesMap (existing : SalesMap) (ordersEdges : List OrderEdge) :
    SalesMap :=
  ordersEdges.foldl
    (fun m e => e.lineItems.foldl (fun m2 li => applyLineItem e.createdAt m2 li) m)
    existing

/-- All `(order createdAt, line item)` pairs of a list of order edges, in
iteration order. -/
def edgePairs : List OrderEdge → List (Option String × LineItem)
  | [] => []
  | e :: es => e.lineItems.map (fun li => (e.createdAt, li)) ++ edgePairs es

/-- The `(order createdAt, quantity)` contributions of the line items
bearing the given variant id, in iteration order. -/
def itemsFor (vid : String) (es : List OrderEdge) : List (Option String × Int) :=
  (edgePairs es).filterMap
    (fun p => if p.2.variantId = some vid then some (p.1, p.2.quantity) else none)

/-- Total quantity of the line items bearing the given variant id. -/
def soldQty (vid : String) (es : List OrderEdge) : Int :=
  ((itemsFor vid es).map (fun p => p.2)).sum

/-- The truthy `createdAt` timestamps of the orders contributing line
items for the given variant id. -/
def soldDates (vid : String) (es : List OrderEdge) : List String :=
  (itemsFor vid es).filterMap (fun p => orNull p.1)

/-- Lexical minimum of two ISO-8601 timestamp strings. -/
def strMin (a b : String) : String := if a ≤ b then a else b

/-- Lexical maximum of two ISO-8601 timestamp strings. -/
def strMax (a b : String) : String := if a ≤ b then b else a

/-- Fold step extending an optional running minimum by one timestamp. -/
def minStep (acc : Option String) (d : String) : Option String :=
  match acc with
  | none => some d
  | some a => some (strMin a d)

/-- Fold step extending an optional running maximum by one timestamp. -/
def maxStep (acc : Option String) (d : String) : Option String :=
  match acc with
  | none => some d
  | some a => some (strMax a d)

/-- Lexical minimum of an optional prior bound and a list of timestamps. -/
def datesMin (init : Option String) (ds : List String) : Option String :=
  ds.foldl minStep init

/-- Lexical maximum of an optional prior bound and a list of timestamps. -/
def datesMax (init : Option String) (ds : List String) : Option String :=
  ds.foldl maxStep init

/-- Extend an optional bound by an optional timestamp (absent: keep). -/
def optMinStep (acc : Option String) : Option String → Option String
  | none => acc
  | some d => minStep acc d

/-- Extend an optional bound by an optional timestamp (absent: keep). -/
def optMaxStep (acc : Option String) : Option String → Option String
  | none => acc
  | some d => maxStep acc d

/-- Prior `qtySold` of a map entry, `0` when the variant is absent. -/
def priorQty : Option SalesAgg → Int
  | some a => a.qtySold
  | none => 0

/-- Prior `firstSoldDate` of a map entry, absent when the variant is. -/
def priorFirst : Option SalesAgg → Option String
  | some a => a.firstSoldDate
  | none => none

/-- Prior `lastSoldDate` of a map entry, absent when the variant is. -/
def priorLast : Option SalesAgg → Option String
  | some a => a.lastSoldDate
  | none => none

/-- Well-formedness of a map entry: stored dates are never the (falsy)
empty string. Every entry `mergeSalesMap` itself writes satisfies this. -/
def wfEntry : Option SalesAgg → Prop
  | some a => a.firstSoldDate ≠ some "" ∧ a.lastSoldDate ≠ some ""
  | none => True

/-- Per-key view of one `applyLineItem` step. -/
def keyStep (vid : String) (st : Option SalesAgg) (p : Option String × LineItem) :
    Option SalesAgg :=
  match p.2.variantId with
  | none => st
  | some v =>
      if v = "" then st
      else if v = vid then some (aggAfter p.1 st p.2.quantity) else st

/-- Per-key fold step over the contributions of one variant id. -/
def contribStep (st : Option SalesAgg) (q : Option String × Int) :
    Option SalesAgg :=
  some (aggAfter q.1 st q.2)

/-! ### Report runner (`startReportRun` / `continueReportRun`) -/

/-- A persisted `ReportRunState` row (the fields the runner touches). -/
structure RunState where
  shop : String
  periodQtySoldLTE : Int
  lookBackDays : Int
  sinceISO : String
  cursor : Option String
  done : Bool
  processedOrders : Int
  salesByVariant : SalesMap
  status : String
  error : Option String
  deriving Repr, DecidableEq

/-- The row `startReportRun` creates. -/
def initialRun (shop : String) (periodQtySoldLTE lookBackDays : Int)
    (sinceISO : String) : RunState :=
  { shop := shop, periodQtySoldLTE := periodQtySoldLTE
    lookBackDays := lookBackDays, sinceISO := sinceISO, cursor := none
    done := false, processedOrders := 0, salesByVariant := []
    status := "running", error := none }

/-- One page of the orders scan as returned by `fetchOrdersChunk`. -/
structure OrdersChunk where
  edges : List OrderEdge
  hasNextPage : Bool
  nextCursor : Option String
  deriving Repr, DecidableEq

/-- Result of one `continueReportRun` invocation: the persisted row after
the call, the number of upstream orders fetches issued, and the
progress message of the returned record. -/
structure ChunkOutcome where
  persisted : RunState
  fetches : Nat
  message : String
  deriving Repr, DecidableEq

/-- Progress message of a budget-exhausted chunk. -/
def scanningMsg (n : Int) : String :=
  "Scanning orders… processed " ++ toString n ++ " so far."

/-- The `while (Date.now() - startedAt < MAX_MS)` loop of
`continueReportRun`; `fetch` maps a cursor to the next orders page, and
`fuel` counts the iterations the time budget admits. Each iteration
merges one page, persists the advanced row, and finishes the run when
the page reports no next page. -/
def runLoop (fetch : Option String → OrdersChunk) :
    Nat → RunState → Nat → ChunkOutcome
  | 0, s, fetches =>
      { persisted := s, fetches := fetches
        message := scanningMsg s.processedOrders }
  | fuel + 1, s, fetches =>
      let chunk := fetch s.cursor
      let s1 : RunState :=
        { s with cursor := chunk.nextCursor
                 processedOrders := s.processedOrders + chunk.edges.length
                 salesByVariant := mergeSalesMap s.salesByVariant chunk.edges
                 status := "running", error := none }
      if chunk.hasNextPage = false then
        let s2 : RunState := { s1 with done := true, status := "done" }
        { persisted := s2, fetches := fetches + 1
          message := "Report scan complete." }
      else runLoop fetch fuel s1 (fetches + 1)

/-- `continueReportRun(admin, shopDomain, runId)`: `db` is the row
`findUnique` returned for the run id. A missing or foreign run throws;
a `done` run returns its terminal result untouched; an `error` run
re-throws its stored error; otherwise the chunk loop runs. -/
def continueReportRun (fetch : Option String → OrdersChunk)
    (db : Option RunState) (shopDomain : String) (fuel : Nat) :
    Except String ChunkOutcome :=
  match db with
  | none => Except.error "Report run not found."
  | some run =>
      if run.shop ≠ shopDomain then Except.error "Report run not found."
      else if run.done = true ∨ run.status = "done" then
        Except.ok { persisted := run, fetches := 0
                    message := "Report scan complete." }
      else if run.status = "error" then
        Except.error (jsOrStr run.error "Report run previously failed.")
      else Except.ok (runLoop fetch fuel run 0)

/-- Persisted rows reachable from job creation by any sequence of
`continueReportRun` chunk invocations (any upstream behaviour, any
time budget per chunk; budget-interrupted chunks are covered by the
smaller-fuel invocations, so every intermediate persisted row of a
longer chunk is also reachable). -/
inductive ReachableRun : RunState → Prop
  | init (shop : String) (p l : Int) (sinceISO : String) :
      ReachableRun (initialRun shop p l sinceISO)
  | step (s : RunState) (fetch : Option String → OrdersChunk)
      (shopDomain : String) (fuel : Nat) (out : ChunkOutcome) :
      ReachableRun s →
      continueReportRun fetch (some s) shopDomain fuel = Except.ok out →
      ReachableRun out.persisted

/-! ### Stocky receipt upsert (`upsertReceiptForSku`) -/

/-- A persisted `StockySkuReceipt` row (timestamps as epoch ms). -/
structure Receipt where
  firstReceivedAt : Option Int
  lastReceivedAt : Option Int
  deriving Repr, DecidableEq

/-- The database write an `upsertReceiptForSku` call performs. -/
inductive ReceiptWrite where
  | noop
  | create (r : Receipt)
  | update (r : Receipt)
  deriving Repr, DecidableEq

/-- `upsertReceiptForSku({shop, sku, receivedAt})`: `existing` is the row
found for `(shop, sku)`, `receivedAt` the `safeDate`-parsed timestamp
(`none` when missing or unparseable). Creates on first sight, widens
the `(first, last)` bounds, and writes only when a bound changed. -/
def upsertReceiptForSku (existing : Option Receipt) (receivedAt : Option Int) :
    ReceiptWrite :=
  match receivedAt with
  | none => ReceiptWrite.noop
  | some dt =>
      match existing with
      | none => ReceiptWrite.create { firstReceivedAt := some dt, lastReceivedAt := some dt }
      | some ex =>
          let nextFirst : Option Int :=
            match ex.firstReceivedAt with
            | none => some dt
            | some f => if dt < f then some dt else some f
          let nextLast : Option Int :=
            match ex.lastReceivedAt with
            | none => some dt
            | some l => if l < dt then some dt else some l
          if ex.firstReceivedAt ≠ nextFirst ∨ ex.lastReceivedAt ≠ nextLast then
            ReceiptWrite.update { firstReceivedAt := nextFirst, lastReceivedAt := nextLast }
          else ReceiptWrite.noop

/-- The `StockySkuReceipt` table, keyed by `(shop, sku)`. -/
abbrev ReceiptsDb := List ((String × String) × Receipt)

/-- Apply the write `upsertReceiptForSku` performs to the table. -/
def applyUpsert (db : ReceiptsDb) (shop sku : String) (receivedAt : Option Int) :
    ReceiptsDb :=
  match upsertReceiptForSku (alookup db (shop, sku)) receivedAt with
  | ReceiptWrite.noop => db
  | ReceiptWrite.create r => aset db (shop, sku) r
  | ReceiptWrite.update r => aset db (shop, sku) r

/-! ### Stocky purchase-orders fetcher (`fetchStockyPurchaseOrdersPage`) -/

/-- One Stocky purchase-order item (`purchase_items[]`); `receivedAt` is
the parsed `received_at` timestamp, `none` when missing. -/
structure PurchaseItem where
  sku : String
  receivedAt : Option Int
  deriving Repr, DecidableEq

/-- One Stocky purchase order. -/
structure PurchaseOrder where
  items : List PurchaseItem
  deriving Repr, DecidableEq

/-- One HTTP response of the Stocky endpoint: a 429 with its parsed
finite `retry-after` seconds (`none` when the header is absent or not a
finite number), a 2xx with its decoded `purchase_orders`, or another
non-2xx status with its body text. -/
inductive StockyResp where
  | rate (retryAfter : Option Int)
  | ok (orders : List PurchaseOrder)
  | fail (status : Nat) (body : String)

/-- `MAX_RETRIES` of `fetchStockyPurchaseOrdersPage`. -/
def stockyMaxRetries : Nat := 6

/-- `baseWaitMs`: `max(1000, retryAfter*1000)`, or `2000` with no hint. -/
def baseWaitMs (retryAfter : Option Int) : Int :=
  match retryAfter with
  | some s => max 1000 (s * 1000)
  | none => 2000

/-- `waitMs = min(30000, baseWaitMs * 2^attempt)`. -/
def stockyWaitMs (retryAfter : Option Int) (attempt : Nat) : Int :=
  min 30000 (baseWaitMs retryAfter * 2 ^ attempt)

/-- What one `fetchStockyPurchaseOrdersPage` call did: the sleeps it
performed before each retry (in order, in ms) and its outcome. -/
structure StockyFetchTrace where
  waits : List Int
  outcome : Except String (List PurchaseOrder)

/-- Error message of a non-429 upstream failure. -/
def stockyFailMsg (status : Nat) (body : String) : String :=
  ("Stocky API error (" ++ toString status ++ "). " ++ body).trim

/-- The retry loop `for (let attempt = 0; attempt <= MAX_RETRIES; ...)`:
`resp` maps the attempt number to the HTTP response received. On a 429
the final attempt throws the rate-limit error; earlier attempts sleep
`stockyWaitMs` and retry. `remaining` counts the loop iterations left. -/
def stockyLoop (resp : Nat → StockyResp) :
    Nat → Nat → List Int → StockyFetchTrace
  | _, 0, waits => { waits := waits, outcome := Except.ok [] }
  | attempt, r + 1, waits =>
      match resp attempt with
      | StockyResp.rate ra =>
          if attempt = stockyMaxRetries then
            { waits := waits
              outcome := Except.error
                "Stocky API error (429): rate limited. Retried 7 times." }
          else stockyLoop resp (attempt + 1) r (waits ++ [stockyWaitMs ra attempt])
      | StockyResp.ok orders => { waits := waits, outcome := Except.ok orders }
      | StockyResp.fail st body =>
          { waits := waits, outcome := Except.error (stockyFailMsg st body) }

/-- `fetchStockyPurchaseOrdersPage` for one `(limit, offset)` pair. -/
def fetchStockyPurchaseOrdersPage (resp : Nat → StockyResp) : StockyFetchTrace :=
  stockyLoop resp 0 (stockyMaxRetries + 1) []

/-! ### Full-sync chunk driver (`runFullSyncChunk`) -/

/-- A persisted `StockySyncState` row. -/
structure SyncState where
  fullOffset : Nat
  fullDone : Bool
  deriving Repr, DecidableEq

/-- The JSON object a full-sync chunk returns to the client. -/
structure FullSyncView where
  done : Bool
  offset : Nat
  scannedOrders : Nat
  itemsProcessed : Nat
  message : String
  suggestedNextPollMs : Nat
  deriving Repr, DecidableEq

/-- Result of one `runFullSyncChunk` invocation: the receipts table and
sync row after the call, the page offsets requested upstream (in
order), and the returned JSON. -/
structure FullSyncOutcome where
  receipts : ReceiptsDb
  syncState : SyncState
  fetchedOffsets : List Nat
  view : FullSyncView
  deriving Repr, DecidableEq

/-- Page size of the full sync. -/
def stockyLimit : Nat := 100

/-- Fan one page of purchase orders into per-SKU receipt upserts,
skipping items with a blank (trimmed) SKU or missing `received_at`;
returns the updated table and the number of items processed. -/
def processOrders (shopDomain : String) (db : ReceiptsDb)
    (orders : List PurchaseOrder) : ReceiptsDb × Nat :=
  orders.foldl
    (fun acc po =>
      po.items.foldl
        (fun acc2 item =>
          let sku := item.sku.trim
          if sku = "" ∨ item.receivedAt = none then acc2
          else (applyUpsert acc2.1 shopDomain sku item.receivedAt, acc2.2 + 1))
        acc)
    (db, 0)

/-- The `while (Date.now() - startedAt < MAX_MS)` loop of
`runFullSyncChunk`; `pages` maps an offset to the purchase orders the
fetcher returns for it. An empty page or a short page marks the sync
done; otherwise the offset advances by the page length and is
persisted. -/
def fullSyncLoop (shopDomain : String) (pages : Nat → List PurchaseOrder) :
    Nat → Nat → ReceiptsDb → List Nat → Nat → Nat → FullSyncOutcome
  | 0, offset, db, offs, scanned, items =>
      { receipts := db, syncState := { fullOffset := offset, fullDone := false }
        fetchedOffsets := offs
        view := { done := false, offset := offset, scannedOrders := scanned
                  itemsProcessed := items, message := "Full Sync in progress…"
                  suggestedNextPollMs := 1400 } }
  | fuel + 1, offset, db, offs, scanned, items =>
      let orders := pages offset
      let offs1 := offs ++ [offset]
      if orders.length = 0 then
        { receipts := db, syncState := { fullOffset := offset, fullDone := true }
          fetchedOffsets := offs1
          view := { done := true, offset := offset, scannedOrders := scanned
                    itemsProcessed := items, message := "Full Sync complete."
                    suggestedNextPollMs := 0 } }
      else
        let pr := processOrders shopDomain db orders
        let scanned1 := scanned + orders.length
        let items1 := items + pr.2
        let offset1 := offset + orders.length
        if orders.length < stockyLimit then
          { receipts := pr.1
            syncState := { fullOffset := offset1, fullDone := true }
            fetchedOffsets := offs1
            view := { done := true, offset := offset1, scannedOrders := scanned1
                      itemsProcessed := items1, message := "Full Sync complete."
                      suggestedNextPollMs := 0 } }
        else fullSyncLoop shopDomain pages fuel offset1 pr.1 offs1 scanned1 items1

/-- `getOrCreateSyncState`: upsert with an empty update, creating
`{fullOffset: 0, fullDone: false}` when the row is missing. -/
def getOrCreateSyncState (db : Option SyncState) : SyncState :=
  db.getD { fullOffset := 0, fullDone := false }

/-- `runFullSyncChunk({shopDomain, stockyApiKey, startFresh})`: `syncDb`
is the persisted `StockySyncState` row (if any) and `receipts` the
receipt table. `startFresh` first resets the row to
`{fullOffset: 0, fullDone: false}` (`resetFullSync`); a row already
marked done returns immediately without fetching. -/
def runFullSyncChunk (pages : Nat → List PurchaseOrder) (shopDomain : String)
    (startFresh : Bool) (syncDb : Option SyncState) (receipts : ReceiptsDb)
    (fuel : Nat) : FullSyncOutcome :=
  let syncDb1 : Option SyncState :=
    if startFresh then some { fullOffset := 0, fullDone := false } else syncDb
  let state := getOrCreateSyncState syncDb1
  if state.fullDone then
    { receipts := receipts, syncState := state, fetchedOffsets := []
      view := { done := true, offset := state.fullOffset, scannedOrders := 0
                itemsProcessed := 0, message := "Full Sync already complete."
                suggestedNextPollMs := 0 } }
  else fullSyncLoop shopDomain pages fuel state.fullOffset receipts [] 0 0

/-! ### Capped variant scan (`fetchAllActiveVariants`) -/

/-- One `productVariants.edges[]` entry; the node payload is opaque. -/
structure VariantEdge (ν : Type) where
  cursor : Option String
  node : Option ν

/-- One `productVariants` page. -/
structure VariantPage (ν : Type) where
  edges : List (VariantEdge ν)
  hasNextPage : Bool

/-- The value `fetchAllActiveVariants` returns. -/
structure FetchAllResult (ν : Type) where
  variants : List ν
  truncated : Bool
  max : Nat

/-- `MAX_VARIANTS`. -/
def MAX_VARIANTS : Nat := 5000

/-- The `for (const edge of pv.edges)` loop: push each present node and
return (`Sum.inl`) the collected list the moment the cap is reached. -/
def pushEdges {ν : Type} (acc : List ν) :
    List (VariantEdge ν) → List ν ⊕ List ν
  | [] => Sum.inr acc
  | e :: rest =>
      match e.node with
      | some v =>
          if MAX_VARIANTS ≤ (acc ++ [v]).length then Sum.inl (acc ++ [v])
          else pushEdges (acc ++ [v]) rest
      | none =>
          if MAX_VARIANTS ≤ acc.length then Sum.inl acc else pushEdges acc rest

/-- The `while (true)` page loop of `fetchAllActiveVariants`; `pages`
maps a cursor to the page the endpoint returns, `fuel` bounds the pages
followed (`none` models the loop not terminating within `fuel`). The
loop stops on the cap, on `hasNextPage` false, or on a falsy cursor. -/
def fetchAllLoop {ν : Type} (pages : Option String → VariantPage ν) :
    Nat → List ν → Option String → Option (FetchAllResult ν)
  | 0, _, _ => none
  | fuel + 1, acc, after =>
      let pv := pages after
      match pushEdges acc pv.edges with
      | Sum.inl vs => some { variants := vs, truncated := true, max := MAX_VARIANTS }
      | Sum.inr acc1 =>
          if pv.hasNextPage = false then
            some { variants := acc1, truncated := false, max := MAX_VARIANTS }
          else
            let after1 := pv.edges.getLast?.bind (fun e => e.cursor)
            if strTruthy after1 = false then
              some { variants := acc1, truncated := false, max := MAX_VARIANTS }
            else fetchAllLoop pages fuel acc1 after1

/-- `fetchAllActiveVariants(admin)`. -/
def fetchAllActiveVariants {ν : Type} (pages : Option String → VariantPage ν)
    (fuel : Nat) : Option (FetchAllResult ν) :=
  fetchAllLoop pages fuel [] none

/-- Modelled from the spec: the full set of variants the upstream offers
along the cursor chain (no item cap), `fetchAll` "loops internally
until no more pages". Follows the same chain-ending conditions as the
code (last page, or a page whose last edge carries no cursor). -/
def collectAll {ν : Type} (pages : Option String → VariantPage ν) :
    Nat → List ν → Option String → Option (List ν)
  | 0, _, _ => none
  | fuel + 1, acc, after =>
      let pv := pages after
      let acc1 := acc ++ pv.edges.filterMap (fun e => e.node)
      if pv.hasNextPage = false then some acc1
      else
        let after1 := pv.edges.getLast?.bind (fun e => e.cursor)
        if strTruthy after1 = false then some acc1
        else collectAll pages fuel acc1 after1

/-! ### Route action (`action`) -/

/-- JS `Number.parseInt(s, 10)`: skip leading whitespace, read an
optional sign and then the longest decimal-digit prefix; `none` (NaN)
when no digit follows. -/
def jsParseInt (s : String) : Option Int :=
  let cs := s.toList.dropWhile Char.isWhitespace
  let sc : Int × List Char :=
    match cs with
    | '+' :: rest => (1, rest)
    | '-' :: rest => (-1, rest)
    | _ => (1, cs)
  let ds := sc.2.takeWhile Char.isDigit
  if ds = [] then none
  else some (sc.1 * (Int.ofNat (ds.foldl (fun n c => n * 10 + (c.toNat - '0'.toNat)) 0)))

/-- `toInt(value, fallback)`: parse `String(value ?? "")` in base 10 and
fall back when the result is not finite. -/
def toInt (value : Option String) (fallback : Int) : Int :=
  match jsParseInt (value.getD "") with
  | some n => n
  | none => fallback

/-- The `report` field of an action response body. -/
structure ReportField where
  runId : String
  done : Bool
  processedOrders : Int
  message : String
  deriving Repr, DecidableEq

/-- The `rows`-related extras of a finished `reportContinue` response. -/
structure FinalizeView where
  rowsCount : Nat
  truncated : Bool
  maxVariants : Nat
  deriving Repr, DecidableEq

/-- Quick-sync counters. -/
structure QuickSyncView where
  scannedOrders : Nat
  itemsProcessed : Nat
  deriving Repr, DecidableEq

/-- A progressed report run as seen by the action. -/
structure ProgressLite where
  done : Bool
  processedOrders : Int
  progressMessage : Option String
  deriving Repr, DecidableEq

/-- The JSON body the action returns (fields absent unless set). -/
structure ActionBody where
  inputs : Option (Int × Int)
  error : Option String
  message : Option String
  report : Option ReportField
  fullSync : Option FullSyncView
  rowsInfo : Option FinalizeView
  deriving Repr, DecidableEq

/-- A body with no fields set. -/
def emptyBody : ActionBody :=
  { inputs := none, error := none, message := none, report := none
    fullSync := none, rowsInfo := none }

/-- What the action returns: a plain data object (serialized by the
framework with HTTP status 200), or a `Response` thrown by
`authenticate.admin` and returned as-is by the catch block. -/
inductive ActionReturn where
  | data (body : ActionBody)
  | response (status : Nat)
  deriving Repr, DecidableEq

/-- HTTP status of an action return: returned plain objects are
serialized by the framework with status 200. -/
def httpStatusOf : ActionReturn → Nat
  | ActionReturn.data _ => 200
  | ActionReturn.response s => s

/-- The `error` field of a returned data body. -/
def returnedError : ActionReturn → Option String
  | ActionReturn.data b => b.error
  | ActionReturn.response _ => none

/-- How many of the `error`/`message`/`report`/`fullSync` fields are set. -/
def presentCount (b : ActionBody) : Nat :=
  (if b.error.isSome then 1 else 0) + (if b.message.isSome then 1 else 0) +
    (if b.report.isSome then 1 else 0) + (if b.fullSync.isSome then 1 else 0)

/-- Environment of one action invocation: the authentication outcome, the
shop sources, the `STOCKY_API_KEY` value, and the outcomes of the
database / upstream sub-operations each intent runs (an
`Except.error` models a thrown exception reaching the catch block). -/
structure ActionEnv where
  authResponseStatus : Option Nat
  urlShop : Option String
  sessionShop : Option String
  stockyApiKey : String
  newRunId : String
  fullSyncRun : Except String FullSyncView
  quickSyncRun : Except String QuickSyncView
  reportStartRun : Except String ProgressLite
  reportContinueRun : Except String ProgressLite
  finalizeRun : Except String FinalizeView

/-- The route `action({request})`: authenticate, resolve the shop
domain, parse the numeric inputs with `toInt`, and dispatch on the
`intent` form field; all handled outcomes are returned as plain data
bodies, and exceptions caught at the top level become `{error}` bodies
(without `inputs`). -/
def actionFn (env : ActionEnv) (form : List (String × String)) : ActionReturn :=
  match env.authResponseStatus with
  | some st => ActionReturn.response st
  | none =>
      let shopDomain := jsOr env.urlShop env.sessionShop
      let intent := jsOrStr (alookup form "intent") "reportStart"
      let periodQtySoldLTE := toInt (alookup form "periodQtySoldLTE") 0
      let lookBackDays := toInt (alookup form "lookBackDays") 60
      let inputs : Option (Int × Int) := some (periodQtySoldLTE, lookBackDays)
      match shopDomain with
      | none =>
          ActionReturn.data
            { emptyBody with error := some "Missing shop domain.", inputs := inputs }
      | some _ =>
          if intent = "stockyFullSync" then
            if env.stockyApiKey = "" then
              ActionReturn.data
                { emptyBody with error := some "STOCKY_API_KEY is not set."
                                 inputs := inputs }
            else
              match env.fullSyncRun with
              | Except.ok chunk =>
                  ActionReturn.data
                    { emptyBody with inputs := inputs, fullSync := some chunk }
              | Except.error e =>
                  ActionReturn.data { emptyBody with error := some e }
          else if intent = "stockyQuickSync" then
            if env.stockyApiKey = "" then
              ActionReturn.data
                { emptyBody with error := some "STOCKY_API_KEY is not set."
                                 inputs := inputs }
            else
              match env.quickSyncRun with
              | Except.ok r =>
                  ActionReturn.data
                    { emptyBody with
                        inputs := inputs,
                        message := some ("Quick Sync complete. Scanned "
                          ++ toString r.scannedOrders ++ " POs, updated "
                          ++ toString r.itemsProcessed ++ " received items.") }
              | Except.error e =>
                  ActionReturn.data { emptyBody with error := some e }
          else if intent = "reportStart" then
            if periodQtySoldLTE < 0 ∨ lookBackDays ≤ 0 then
              ActionReturn.data
                { emptyBody with error := some "Invalid input values."
                                 inputs := inputs }
            else
              match env.reportStartRun with
              | Except.ok p =>
                  ActionReturn.data
                    { emptyBody with
                        inputs := inputs,
                        report := some
                          { runId := env.newRunId, done := p.done,
                            processedOrders := p.processedOrders,
                            message := p.progressMessage.getD "Scanning orders…" } }
              | Except.error e =>
                  ActionReturn.data { emptyBody with error := some e }
          else if intent = "reportContinue" then
            let runId := jsOrStr (alookup form "runId") ""
            if runId = "" then
              ActionReturn.data
                { emptyBody with error := some "Missing runId.", inputs := inputs }
            else
              match env.reportContinueRun with
              | Except.error e =>
                  ActionReturn.data { emptyBody with error := some e }
              | Except.ok p =>
                  if p.done = false then
                    ActionReturn.data
                      { emptyBody with
                          inputs := inputs,
                          report := some
                            { runId := runId, done := false,
                              processedOrders := p.processedOrders,
                              message := p.progressMessage.getD
                                ("Scanning orders… processed "
                                  ++ toString p.processedOrders ++ ".") } }
                  else
                    match env.finalizeRun with
                    | Except.error e =>
                        ActionReturn.data { emptyBody with error := some e }
                    | Except.ok fin =>
                        ActionReturn.data
                          { emptyBody with
                              inputs := inputs,
                              report := some
                                { runId := runId, done := true,
                                  processedOrders := p.processedOrders,
                                  message := "Report ready." },
                              rowsInfo := some fin }
          else
            ActionReturn.data
              { emptyBody with error := some ("Unknown intent: " ++ intent)
                               inputs := inputs }

/-! ## Lemmas: association lists -/

theorem alookup_aset {α β : Type} [DecidableEq α] (m : List (α × β)) (k k1 : α)
    (v : β) : alookup (aset m k v) k1 = if k = k1 then some v else alookup m k1 := by
  induction m with
  | nil =>
      by_cases h : k = k1 <;> simp [aset, alookup, h]
  | cons hd tl ih =>
      obtain ⟨k0, v0⟩ := hd
      by_cases h0 : k0 = k
      · subst h0
        by_cases h1 : k0 = k1 <;> simp [aset, alookup, h1]
      · by_cases h1 : k0 = k1
        · subst h1
          have hk : k ≠ k0 := fun h => h0 h.symm
          simp [aset, alookup, h0, hk]
        · simp [aset, alookup, h0, h1, ih]

/-! ## Lemmas: sales-map merge -/

theorem updFirst_eq_minStep (c : String) (f : Option String) (hf : f ≠ some "") :
    updFirst c f = minStep f c := by
  cases f with
  | none => rfl
  | some f0 =>
      have hf0 : f0 ≠ "" := by
        intro h
        exact hf (by rw [h])
      by_cases h : c < f0
      · have hle : ¬ f0 ≤ c := not_le.mpr h
        simp [updFirst, minStep, strMin, hf0, h, hle]
      · have hle : f0 ≤ c := not_lt.mp h
        simp [updFirst, minStep, strMin, hf0, h, hle]

theorem updLast_eq_maxStep (c : String) (l : Option String) (hl : l ≠ some "") :
    updLast c l = maxStep l c := by
  cases l with
  | none => rfl
  | some l0 =>
      have hl0 : l0 ≠ "" := by
        intro h
        exact hl (by rw [h])
      by_cases h : l0 < c
      · have hle : l0 ≤ c := le_of_lt h
        simp [updLast, maxStep, strMax, hl0, h, hle]
      · by_cases h2 : l0 ≤ c
        · have : l0 = c := le_antisymm h2 (not_lt.mp h)
          subst this
          simp [updLast, maxStep, strMax, hl0, h, h2]
        · simp [updLast, maxStep, strMax, hl0, h, h2]

theorem aggAfter_spec (c : Option String) (st : Option SalesAgg) (q : Int)
    (hwf : wfEntry st) :
    aggAfter c st q =
      { qtySold := priorQty st + q
        firstSoldDate := optMinStep (priorFirst st) (orNull c)
        lastSoldDate := optMaxStep (priorLast st) (orNull c) } := by
  cases st with
  | none =>
      cases c with
      | none =>
          simp [aggAfter, orNull, strTruthy, priorQty, priorFirst, priorLast,
            optMinStep, optMaxStep]
      | some cc =>
          by_cases hc : cc = ""
          · subst hc
            simp [aggAfter, orNull, strTruthy, priorQty, priorFirst, priorLast,
              optMinStep, optMaxStep]
          · simp [aggAfter, orNull, strTruthy, priorQty, priorFirst, priorLast,
              optMinStep, optMaxStep, hc, updFirst, updLast, minStep, maxStep,
              strMin, strMax, lt_irrefl]
  | some a =>
      obtain ⟨hwf1, hwf2⟩ := hwf
      cases c with
      | none =>
          simp [aggAfter, orNull, strTruthy, priorQty, priorFirst, priorLast,
            optMinStep, optMaxStep]
      | some cc =>
          by_cases hc : cc = ""
          · subst hc
            simp [aggAfter, orNull, strTruthy, priorQty, priorFirst, priorLast,
              optMinStep, optMaxStep]
          · simp only [aggAfter, orNull, strTruthy, priorQty, priorFirst,
              priorLast, optMinStep, optMaxStep]
            simp [hc, updFirst_eq_minStep cc a.firstSoldDate hwf1,
              updLast_eq_maxStep cc a.lastSoldDate hwf2, strTruthy]

theorem minStep_ne_empty (acc : Option String) (d : String)
    (ha : acc ≠ some "") (hd : d ≠ "") : minStep acc d ≠ some "" := by
  cases acc with
  | none => simpa [minStep] using hd
  | some a =>
      have ha0 : a ≠ "" := by
        intro h
        exact ha (by rw [h])
      by_cases h : a ≤ d <;> simp [minStep, strMin, h, ha0, hd]

theorem maxStep_ne_empty (acc : Option String) (d : String)
    (ha : acc ≠ some "") (hd : d ≠ "") : maxStep acc d ≠ some "" := by
  cases acc with
  | none => simpa [maxStep] using hd
  | some a =>
      have ha0 : a ≠ "" := by
        intro h
        exact ha (by rw [h])
      by_cases h : a ≤ d <;> simp [maxStep, strMax, h, ha0, hd]

theorem orNull_ne_empty (c : Option String) : ∀ d, orNull c = some d → d ≠ "" := by
  intro d h
  cases c with
  | none => simp [orNull, strTruthy] at h
  | some cc =>
      by_cases hc : cc = ""
      · subst hc
        simp [orNull, strTruthy] at h
      · simp [orNull, strTruthy, hc] at h
        subst h
        exact hc

theorem wfEntry_aggAfter (c : Option String) (st : Option SalesAgg) (q : Int)
    (hwf : wfEntry st) : wfEntry (some (aggAfter c st q)) := by
  rw [aggAfter_spec c st q hwf]
  have hf : priorFirst st ≠ some "" := by
    cases st with
    | none => simp [priorFirst]
    | some a => exact hwf.1
  have hl : priorLast st ≠ some "" := by
    cases st with
    | none => simp [priorLast]
    | some a => exact hwf.2
  cases hc : orNull c with
  | none => exact ⟨hf, hl⟩
  | some d =>
      have hd : d ≠ "" := orNull_ne_empty c d hc
      exact ⟨minStep_ne_empty _ _ hf hd, maxStep_ne_empty _ _ hl hd⟩

theorem contribFold_spec (cs : List (Option String × Int)) (st : Option SalesAgg)
    (hne : cs ≠ []) (hwf : wfEntry st) :
    cs.foldl contribStep st = some
      { qtySold := priorQty st + (cs.map (fun p => p.2)).sum
        firstSoldDate := datesMin (priorFirst st) (cs.filterMap (fun p => orNull p.1))
        lastSoldDate := datesMax (priorLast st) (cs.filterMap (fun p => orNull p.1)) } := by
  induction cs generalizing st with
  | nil => exact absurd rfl hne
  | cons p rest ih =>
      obtain ⟨c, q⟩ := p
      have hstep : contribStep st (c, q) = some (aggAfter c st q) := rfl
      cases rest with
      | nil =>
          simp only [List.foldl_cons, List.foldl_nil, hstep]
          rw [aggAfter_spec c st q hwf]
          cases hc : orNull c <;>
            simp [datesMin, datesMax, optMinStep, optMaxStep, hc]
      | cons p2 rest2 =>
          have hne2 : p2 :: rest2 ≠ [] := by simp
          have hwf2 : wfEntry (some (aggAfter c st q)) := wfEntry_aggAfter c st q hwf
          rw [List.foldl_cons, hstep, ih _ hne2 hwf2]
          rw [aggAfter_spec c st q hwf]
          cases hc : orNull c with
          | none =>
              simp only [priorQty, priorFirst, priorLast, optMinStep, optMaxStep]
              simp [List.filterMap_cons, hc, datesMin, datesMax, add_assoc]
          | some d =>
              simp only [priorQty, priorFirst, priorLast, optMinStep, optMaxStep]
              simp [List.filterMap_cons, hc, datesMin, datesMax, add_assoc]

theorem alookup_applyLineItem (c : Option String) (m : SalesMap) (li : LineItem)
    (vid : String) :
    alookup (applyLineItem c m li) vid = keyStep vid (alookup m vid) (c, li) := by
  cases hv : li.variantId with
  | none => simp [applyLineItem, keyStep, hv]
  | some v =>
      by_cases hve : v = ""
      · simp [applyLineItem, keyStep, hv, hve]
      · by_cases hvv : v = vid
        · subst hvv
          simp [applyLineItem, keyStep, hv, hve, alookup_aset]
        · simp [applyLineItem, keyStep, hv, hve, hvv, alookup_aset]

theorem alookup_foldl_pairs (ps : List (Option String × LineItem)) (m : SalesMap)
    (vid : String) :
    alookup (ps.foldl (fun m2 p => applyLineItem p.1 m2 p.2) m) vid
      = ps.foldl (keyStep vid) (alookup m vid) := by
  induction ps generalizing m with
  | nil => rfl
  | cons p rest ih =>
      rw [List.foldl_cons, List.foldl_cons, ih, alookup_applyLineItem]

theorem mergeSalesMap_eq_pairs (existing : SalesMap) (es : List OrderEdge) :
    mergeSalesMap existing es
      = (edgePairs es).foldl (fun m2 p => applyLineItem p.1 m2 p.2) existing := by
  induction es generalizing existing with
  | nil => rfl
  | cons e rest ih =>
      show mergeSalesMap
          (e.lineItems.foldl (fun m2 li => applyLineItem e.createdAt m2 li) existing)
          rest = _
      rw [ih, edgePairs, List.foldl_append, List.foldl_map]

theorem keyStep_foldl_contribs (vid : String) (hvid : vid ≠ "")
    (ps : List (Option String × LineItem)) (st : Option SalesAgg) :
    ps.foldl (keyStep vid) st
      = (ps.filterMap
          (fun p => if p.2.variantId = some vid then some (p.1, p.2.quantity) else none)).foldl
          contribStep st := by
  induction ps generalizing st with
  | nil => rfl
  | cons p rest ih =>
      cases hv : p.2.variantId with
      | none => simp [List.foldl_cons, keyStep, hv, List.filterMap_cons, ih]
      | some v =>
          by_cases hvv : v = vid
          · subst hvv
            have hve : v ≠ "" := hvid
            simp [List.foldl_cons, keyStep, hv, hve, List.filterMap_cons, ih,
              contribStep]
          · have hne : ¬ (some v = some vid) := by simpa using hvv
            by_cases hve : v = "" <;>
              simp [List.foldl_cons, keyStep, hv, hve, hvv, List.filterMap_cons,
                hne, Ne.symm hvid, ih]

theorem merge_lookup (m : SalesMap) (es : List OrderEdge) (vid : String)
    (hvid : vid ≠ "") :
    alookup (mergeSalesMap m es) vid
      = (itemsFor vid es).foldl contribStep (alookup m vid) := by
  rw [mergeSalesMap_eq_pairs, alookup_foldl_pairs, keyStep_foldl_contribs vid hvid]
  rfl

theorem keyStep_empty (st : Option SalesAgg) (p : Option String × LineItem) :
    keyStep "" st p = st := by
  cases hv : p.2.variantId with
  | none => simp [keyStep, hv]
  | some v =>
      by_cases hve : v = "" <;> simp [keyStep, hv, hve]

theorem merge_lookup_unchanged (m : SalesMap) (es : List OrderEdge) (vid : String)
    (h : vid = "" ∨ itemsFor vid es = []) :
    alookup (mergeSalesMap m es) vid = alookup m vid := by
  rcases h with h | h
  · subst h
    rw [mergeSalesMap_eq_pairs, alookup_foldl_pairs]
    generalize alookup m "" = st
    induction edgePairs es generalizing st with
    | nil => rfl
    | cons p rest ih => rw [List.foldl_cons, keyStep_empty, ih]
  · by_cases hvid : vid = ""
    · subst hvid
      rw [mergeSalesMap_eq_pairs, alookup_foldl_pairs]
      generalize alookup m "" = st
      induction edgePairs es generalizing st with
      | nil => rfl
      | cons p rest ih => rw [List.foldl_cons, keyStep_empty, ih]
    · rw [merge_lookup m es vid hvid, h]
      rfl

theorem merge_qty (m : SalesMap) (es : List OrderEdge) (vid : String)
    (hvid : vid ≠ "") (hwf : wfEntry (alookup m vid)) :
    priorQty (alookup (mergeSalesMap m es) vid)
      = priorQty (alookup m vid) + soldQty vid es := by
  by_cases h : itemsFor vid es = []
  · rw [merge_lookup_unchanged m es vid (Or.inr h)]
    simp [soldQty, h]
  · rw [merge_lookup m es vid hvid, contribFold_spec _ _ h hwf]
    rfl

theorem wf_foldl_contribs (cs : List (Option String × Int)) (st : Option SalesAgg)
    (hwf : wfEntry st) : wfEntry (cs.foldl contribStep st) := by
  induction cs generalizing st with
  | nil => exact hwf
  | cons p rest ih =>
      rw [List.foldl_cons]
      exact ih _ (wfEntry_aggAfter p.1 st p.2 hwf)

theorem wf_merge (m : SalesMap) (es : List OrderEdge)
    (h : ∀ k, wfEntry (alookup m k)) :
    ∀ k, wfEntry (alookup (mergeSalesMap m es) k) := by
  intro k
  by_cases hk : k = ""
  · rw [merge_lookup_unchanged m es k (Or.inl hk)]
    exact h k
  · rw [merge_lookup m es k hk]
    exact wf_foldl_contribs _ _ (h k)

/-! ## C1: mergeSalesMap aggregate semantics -/

/-- C1: for every existing sales map and every list of order edges,
`mergeSalesMap` returns a map in which each non-empty variant id occurring on
some line item has `qtySold` equal to the prior `qtySold` (0 if the variant
was absent) plus the sum of the quantities of the new line items bearing that
id, `firstSoldDate` equal to the lexical minimum of the prior `firstSoldDate`
and the `createdAt` timestamps of the contributing orders, and `lastSoldDate`
the corresponding lexical maximum; line items whose variant id is empty or
missing contribute nothing (such keys are left unchanged). The prior entry is
assumed well formed (stored dates are never the falsy empty string), as every
entry `mergeSalesMap` itself writes is. -/
theorem mergeSalesMap_aggregates (m : SalesMap) (es : List OrderEdge)
    (vid : String) (hvid : vid ≠ "") (hocc : itemsFor vid es ≠ [])
    (hwf : wfEntry (alookup m vid)) :
    alookup (mergeSalesMap m es) vid = some
      { qtySold := priorQty (alookup m vid) + soldQty vid es
        firstSoldDate := datesMin (priorFirst (alookup m vid)) (soldDates vid es)
        lastSoldDate := datesMax (priorLast (alookup m vid)) (soldDates vid es) }
    ∧ ∀ w, (w = "" ∨ itemsFor w es = []) →
        alookup (mergeSalesMap m es) w = alookup m w := by
  constructor
  · rw [merge_lookup m es vid hvid, contribFold_spec _ _ hocc hwf]
    rfl
  · intro w hw
    exact merge_lookup_unchanged m es w hw

/-- A concrete orders page: two orders, out of chronological order, both
selling variant `"gid1"`, one line item with no variant. -/
def c1Page : List OrderEdge :=
  [{ createdAt := some "2025-01-02T00:00:00Z",
     lineItems := [{ variantId := some "gid1", quantity := 2 },
                   { variantId := none, quantity := 7 }] },
   { createdAt := some "2025-01-01T00:00:00Z",
     lineItems := [{ variantId := some "gid1", quantity := 3 }] }]

/-- Witness for `mergeSalesMap_aggregates` on `c1Page` from an empty map. -/
theorem mergeSalesMap_aggregates_witness :
    itemsFor "gid1" c1Page ≠ [] ∧
    alookup (mergeSalesMap [] c1Page) "gid1" = some
      { qtySold := priorQty (alookup ([] : SalesMap) "gid1") + soldQty "gid1" c1Page
        firstSoldDate :=
          datesMin (priorFirst (alookup ([] : SalesMap) "gid1")) (soldDates "gid1" c1Page)
        lastSoldDate :=
          datesMax (priorLast (alookup ([] : SalesMap) "gid1")) (soldDates "gid1" c1Page) } :=
  ⟨by decide, (mergeSalesMap_aggregates [] c1Page "gid1" (by decide) (by decide)
    trivial).1⟩

/-! ## C4: merge is not idempotent against page replay -/

/-- A page with a positive-quantity line item for variant `"v"` and a
negative-quantity line item for the same variant on the same order. -/
def c4Page : List OrderEdge :=
  [{ createdAt := some "2025-01-03T00:00:00Z",
     lineItems := [{ variantId := some "v", quantity := 1 },
                   { variantId := some "v", quantity := -1 }] }]

/-- C4 counterexample: `c4Page` contains a line item with a non-empty variant
id and positive quantity, yet applying `mergeSalesMap` a second time with the
same page does not make that variant's `qtySold` strictly greater than after
one application (quantities are arbitrary integers, and here they cancel). -/
theorem mergeSalesMap_replay_not_strict :
    (itemsFor "v" c4Page ≠ [] ∧ ∃ p ∈ itemsFor "v" c4Page, 0 < p.2) ∧
    ¬ (priorQty (alookup (mergeSalesMap (mergeSalesMap [] c4Page) c4Page) "v")
        > priorQty (alookup (mergeSalesMap [] c4Page) "v")) := by decide

/-- C4 (amended): for every page containing a line item with a non-empty
variant id and positive quantity, in which every line item bearing that
variant id has non-negative quantity, applying `mergeSalesMap` a second time
with the same page yields for that variant a `qtySold` strictly greater than
after one application; starting from an empty map, the replayed merge yields
exactly double the single-application `qtySold` for every variant. -/
theorem mergeSalesMap_replay_doubles (m : SalesMap) (es : List OrderEdge)
    (vid : String) (hvid : vid ≠ "") (hwfm : ∀ k, wfEntry (alookup m k))
    (hnn : ∀ p ∈ itemsFor vid es, 0 ≤ p.2)
    (hpos : ∃ p ∈ itemsFor vid es, 0 < p.2) :
    priorQty (alookup (mergeSalesMap (mergeSalesMap m es) es) vid)
      > priorQty (alookup (mergeSalesMap m es) vid)
    ∧ ∀ w, priorQty (alookup (mergeSalesMap (mergeSalesMap [] es) es) w)
        = 2 * priorQty (alookup (mergeSalesMap [] es) w) := by
  have hS : 0 < soldQty vid es := by
    obtain ⟨p, hp, hppos⟩ := hpos
    have hmem : p.2 ∈ (itemsFor vid es).map (fun p => p.2) :=
      List.mem_map_of_mem _ hp
    have hall : ∀ x ∈ (itemsFor vid es).map (fun p => p.2), (0 : Int) ≤ x := by
      intro x hx
      obtain ⟨p2, hp2, hpx⟩ := List.mem_map.mp hx
      exact hpx ▸ hnn p2 hp2
    have hle := List.single_le_sum hall _ hmem
    exact lt_of_lt_of_le hppos hle
  constructor
  · rw [merge_qty (mergeSalesMap m es) es vid hvid (wf_merge m es hwfm vid)]
    exact lt_add_of_pos_right _ hS
  · intro w
    by_cases hw : w = ""
    · subst hw
      rw [merge_lookup_unchanged _ es "" (Or.inl rfl),
        merge_lookup_unchanged _ es "" (Or.inl rfl)]
      rfl
    · have hwfe : ∀ k, wfEntry (alookup ([] : SalesMap) k) := fun _ => trivial
      have h1 := merge_qty [] es w hw (hwfe w)
      have h2 := merge_qty (mergeSalesMap [] es) es w hw (wf_merge [] es hwfe w)
      have h0 : priorQty (alookup ([] : SalesMap) w) = 0 := rfl
      rw [h2, h1, h0]
      ring

/-- A replay-safe page: one order selling two units of variant `"v"`. -/
def c4GoodPage : List OrderEdge :=
  [{ createdAt := some "2025-01-03T00:00:00Z",
     lineItems := [{ variantId := some "v", quantity := 2 }] }]

/-- Witness for `mergeSalesMap_replay_doubles` on `c4GoodPage`. -/
theorem mergeSalesMap_replay_doubles_witness :
    priorQty (alookup (mergeSalesMap (mergeSalesMap [] c4GoodPage) c4GoodPage) "v")
      > priorQty (alookup (mergeSalesMap [] c4GoodPage) "v") :=
  (mergeSalesMap_replay_doubles [] c4GoodPage "v" (by decide) (fun _ => trivial)
    (by decide) (by decide)).1

/-! ## C2: continueReportRun is a no-op on a done run -/

theorem continueReportRun_some (fetch : Option String → OrdersChunk)
    (run : RunState) (shopDomain : String) (fuel : Nat) :
    continueReportRun fetch (some run) shopDomain fuel =
      if run.shop ≠ shopDomain then Except.error "Report run not found."
      else if run.done = true ∨ run.status = "done" then
        Except.ok { persisted := run, fetches := 0
                    message := "Report scan complete." }
      else if run.status = "error" then
        Except.error (jsOrStr run.error "Report run previously failed.")
      else Except.ok (runLoop fetch fuel run 0) := rfl

/-- C2: for every persisted report run whose state has `done == true` or
`status == "done"`, invoking `continueReportRun` again issues no upstream
orders fetch, leaves the persisted run state unchanged, and returns the
terminal result immediately. -/
theorem continueReportRun_done_noop (fetch : Option String → OrdersChunk)
    (run : RunState) (shopDomain : String) (fuel : Nat)
    (hshop : run.shop = shopDomain)
    (hdone : run.done = true ∨ run.status = "done") :
    continueReportRun fetch (some run) shopDomain fuel =
      Except.ok { persisted := run, fetches := 0
                  message := "Report scan complete." } := by
  have h1 : ¬ run.shop ≠ shopDomain := by simp [hshop]
  rw [continueReportRun_some, if_neg h1, if_pos hdone]

/-- A concrete terminal run row. -/
def c2Run : RunState :=
  { shop := "demo.myshopify.com", periodQtySoldLTE := 0, lookBackDays := 60
    sinceISO := "2025-08-13T00:00:00.000Z", cursor := none, done := true
    processedOrders := 42, salesByVariant := [], status := "done", error := none }

/-- Witness for `continueReportRun_done_noop` on `c2Run`. -/
theorem continueReportRun_done_noop_witness :
    continueReportRun
        (fun _ => { edges := [], hasNextPage := false, nextCursor := none })
        (some c2Run) "demo.myshopify.com" 5 =
      Except.ok { persisted := c2Run, fetches := 0
                  message := "Report scan complete." } :=
  continueReportRun_done_noop _ c2Run "demo.myshopify.com" 5 rfl (Or.inl rfl)

/-! ## C3: done iff status invariant -/

theorem runLoop_inv (fetch : Option String → OrdersChunk) (fuel : Nat)
    (s : RunState) (fetches : Nat) (hd : s.done = false)
    (hs : s.status ≠ "done") :
    ((runLoop fetch fuel s fetches).persisted.done = true
      ↔ (runLoop fetch fuel s fetches).persisted.status = "done") := by
  induction fuel generalizing s fetches with
  | zero => simp [runLoop, hd, hs]
  | succ n ih =>
      rw [runLoop]
      split
      · simp
      · exact ih _ _ hd (by simp)

/-- C3: in every persisted `ReportRunState` reachable from job creation by any
sequence of `continueReportRun` chunk steps, `done == true` holds if and only
if `status == "done"`. -/
theorem reportRun_done_iff_status (s : RunState) (h : ReachableRun s) :
    s.done = true ↔ s.status = "done" := by
  induction h with
  | init shop p l sinceISO => simp [initialRun]
  | step s fetch shopDomain fuel out hs hstep ih =>
      rw [continueReportRun_some] at hstep
      by_cases h1 : s.shop ≠ shopDomain
      · rw [if_pos h1] at hstep
        exact absurd hstep (by simp)
      · rw [if_neg h1] at hstep
        by_cases h2 : s.done = true ∨ s.status = "done"
        · rw [if_pos h2] at hstep
          have hout := Except.ok.inj hstep
          rw [← hout]
          exact ih
        · rw [if_neg h2] at hstep
          by_cases h3 : s.status = "error"
          · rw [if_pos h3] at hstep
            exact absurd hstep (by simp)
          · rw [if_neg h3] at hstep
            have hout := Except.ok.inj hstep
            rw [← hout]
            push_neg at h2
            have hd : s.done = false := by
              cases hb : s.done
              · rfl
              · exact absurd hb h2.1
            exact runLoop_inv fetch fuel s 0 hd h2.2

/-- Witness for `reportRun_done_iff_status` at the freshly created row. -/
theorem reportRun_done_iff_status_witness :
    ((initialRun "demo.myshopify.com" 0 60 "2025-08-13T00:00:00.000Z").done = true
      ↔ (initialRun "demo.myshopify.com" 0 60 "2025-08-13T00:00:00.000Z").status
          = "done") :=
  reportRun_done_iff_status _
    (ReachableRun.init "demo.myshopify.com" 0 60 "2025-08-13T00:00:00.000Z")

/-! ## C5: receipt upsert is idempotent inside the observed bounds -/

/-- C5: for a shop and SKU with an existing receipt row, calling
`upsertReceiptForSku` with a `receivedAt` timestamp `t` satisfying
`firstReceivedAt ≤ t ≤ lastReceivedAt` (in particular any already observed
timestamp) performs no database write, so replaying the call leaves the
receipts table unchanged. -/
theorem upsertReceipt_idempotent (f l t : Int) (h1 : f ≤ t) (h2 : t ≤ l) :
    upsertReceiptForSku
        (some { firstReceivedAt := some f, lastReceivedAt := some l }) (some t)
      = ReceiptWrite.noop
    ∧ ∀ (db : ReceiptsDb) (shop sku : String),
        alookup db (shop, sku)
            = some { firstReceivedAt := some f, lastReceivedAt := some l } →
        applyUpsert db shop sku (some t) = db := by
  have hnf : ¬ t < f := not_lt.mpr h1
  have hnl : ¬ l < t := not_lt.mpr h2
  constructor
  · simp [upsertReceiptForSku, hnf, hnl]
  · intro db shop sku hdb
    simp [applyUpsert, hdb, upsertReceiptForSku, hnf, hnl]

/-- Witness for `upsertReceipt_idempotent` at bounds 10 ≤ 15 ≤ 20. -/
theorem upsertReceipt_idempotent_witness :
    upsertReceiptForSku
        (some { firstReceivedAt := some 10, lastReceivedAt := some 20 }) (some 15)
      = ReceiptWrite.noop :=
  (upsertReceipt_idempotent 10 20 15 (by decide) (by decide)).1

/-! ## C6: 429 backoff of the Stocky fetcher -/

/-- C6: on each 429 response `fetchStockyPurchaseOrdersPage` waits
`min(30000, max(1000, hint*1000) * 2^attempt)` ms before retrying (base
2000 ms when no parseable retry-after header): the waits of an all-429 run,
and of a run of `n ≤ 6` 429s followed by a success, follow exactly that
formula. With a `retry-after: 2` header the first wait is 2000 ms and each
later wait is the doubled previous wait capped at 30000 ms; after the maximum
attempt count is exhausted the fetcher fails with the rate-limit error
instead of retrying further (only 6 waits are ever performed). -/
theorem stockyBackoff (ra : Nat → Option Int) (n : Nat)
    (orders : List PurchaseOrder) (hn : n ≤ 6) :
    (fetchStockyPurchaseOrdersPage (fun i => StockyResp.rate (ra i))).outcome
        = Except.error "Stocky API error (429): rate limited. Retried 7 times."
    ∧ (fetchStockyPurchaseOrdersPage (fun i => StockyResp.rate (ra i))).waits
        = (List.range 6).map (fun a => stockyWaitMs (ra a) a)
    ∧ fetchStockyPurchaseOrdersPage
          (fun i => if i < n then StockyResp.rate (ra i) else StockyResp.ok orders)
        = { waits := (List.range n).map (fun a => stockyWaitMs (ra a) a)
            outcome := Except.ok orders }
    ∧ (fetchStockyPurchaseOrdersPage (fun _ => StockyResp.rate (some 2))).waits
        = [2000, 4000, 8000, 16000, 30000, 30000]
    ∧ ∀ i : Nat, i < 5 →
        min 30000 (2 * ((fetchStockyPurchaseOrdersPage
              (fun _ => StockyResp.rate (some 2))).waits.getD i 0))
          ≤ (fetchStockyPurchaseOrdersPage
              (fun _ => StockyResp.rate (some 2))).waits.getD (i + 1) 0 := by
  refine ⟨rfl, rfl, ?_, by decide, by decide⟩
  interval_cases n <;> rfl

/-- Witness for `stockyBackoff`: all-429 responses with no parseable hint. -/
theorem stockyBackoff_witness :
    (0 : Nat) ≤ 6 ∧
    (fetchStockyPurchaseOrdersPage
        (fun i => StockyResp.rate ((fun _ => none) i))).outcome
      = Except.error "Stocky API error (429): rate limited. Retried 7 times." :=
  ⟨by decide, (stockyBackoff (fun _ => none) 0 [] (by decide)).1⟩

/-! ## C7: full-sync reset vs continue offsets -/

theorem fullSyncLoop_offsets (shopDomain : String)
    (pages : Nat → List PurchaseOrder) (fuel : Nat) :
    ∀ (offset : Nat) (db : ReceiptsDb) (offs : List Nat) (scanned items : Nat),
      ∃ rest,
        (fullSyncLoop shopDomain pages (fuel + 1) offset db offs scanned
            items).fetchedOffsets = offs ++ offset :: rest := by
  induction fuel with
  | zero =>
      intro offset db offs scanned items
      by_cases h0 : (pages offset).length = 0
      · exact ⟨[], by simp [fullSyncLoop, h0]⟩
      · by_cases h1 : (pages offset).length < stockyLimit
        · exact ⟨[], by simp [fullSyncLoop, h0, h1]⟩
        · exact ⟨[], by simp [fullSyncLoop, h0, h1]⟩
  | succ m ih =>
      intro offset db offs scanned items
      by_cases h0 : (pages offset).length = 0
      · exact ⟨[], by simp [fullSyncLoop, h0]⟩
      · by_cases h1 : (pages offset).length < stockyLimit
        · exact ⟨[], by simp [fullSyncLoop, h0, h1]⟩
        · obtain ⟨rest, hrest⟩ := ih (offset + (pages offset).length)
            (processOrders shopDomain db (pages offset)).1 (offs ++ [offset])
            (scanned + (pages offset).length)
            (items + (processOrders shopDomain db (pages offset)).2)
          refine ⟨(offset + (pages offset).length) :: rest, ?_⟩
          rw [fullSyncLoop]
          simp [h0, h1, hrest]

/-- C7: `runFullSyncChunk` with `startFresh = true` resets the persisted sync
state to `fullOffset = 0, fullDone = false` before scanning — the invocation
coincides with a continue invocation on the reset row, and its first page
request uses offset 0 — whereas with `startFresh = false` (mode continue) the
first page request uses the persisted `fullOffset`: after a prior chunk
advanced the offset to 100, a continue chunk fetches at offset 100, not zero. -/
theorem runFullSync_offsets (pages : Nat → List PurchaseOrder)
    (shopDomain : String) (syncDb : Option SyncState) (receipts : ReceiptsDb)
    (fuel off : Nat) (hfuel : 1 ≤ fuel) :
    runFullSyncChunk pages shopDomain true syncDb receipts fuel
        = runFullSyncChunk pages shopDomain false
            (some { fullOffset := 0, fullDone := false }) receipts fuel
    ∧ (runFullSyncChunk pages shopDomain true syncDb receipts
          fuel).fetchedOffsets.head? = some 0
    ∧ (runFullSyncChunk pages shopDomain false
          (some { fullOffset := off, fullDone := false }) receipts
          fuel).fetchedOffsets.head? = some off := by
  obtain ⟨m, rfl⟩ : ∃ m, fuel = m + 1 :=
    ⟨fuel - 1, (Nat.succ_pred_eq_of_pos hfuel).symm⟩
  refine ⟨rfl, ?_, ?_⟩
  · obtain ⟨rest, hrest⟩ := fullSyncLoop_offsets shopDomain pages m 0 receipts [] 0 0
    simp [runFullSyncChunk, getOrCreateSyncState, hrest]
  · obtain ⟨rest, hrest⟩ := fullSyncLoop_offsets shopDomain pages m off receipts [] 0 0
    simp [runFullSyncChunk, getOrCreateSyncState, hrest]

/-- Witness for `runFullSync_offsets`: a continue chunk at offset 100. -/
theorem runFullSync_offsets_witness :
    (1 : Nat) ≤ 1 ∧
    (runFullSyncChunk (fun _ => []) "demo.myshopify.com" false
        (some { fullOffset := 100, fullDone := false }) [] 1).fetchedOffsets.head?
      = some 100 :=
  ⟨by decide,
    (runFullSync_offsets (fun _ => []) "demo.myshopify.com" none [] 1 100
      (by decide)).2.2⟩

/-! ## C8: variant scan stops exactly at the cap -/

theorem pushEdges_char {ν : Type} (es : List (VariantEdge ν)) (acc : List ν)
    (hacc : acc.length < MAX_VARIANTS) :
    pushEdges acc es =
      if MAX_VARIANTS ≤ (acc ++ es.filterMap (fun e => e.node)).length
      then Sum.inl ((acc ++ es.filterMap (fun e => e.node)).take MAX_VARIANTS)
      else Sum.inr (acc ++ es.filterMap (fun e => e.node)) := by
  induction es generalizing acc with
  | nil => simp [pushEdges, Nat.not_le.mpr hacc]
  | cons e rest ih =>
      obtain ⟨cur, node⟩ := e
      cases node with
      | none =>
          have hnle : ¬ MAX_VARIANTS ≤ acc.length := Nat.not_le.mpr hacc
          simp only [pushEdges, if_neg hnle, List.filterMap_cons]
          exact ih acc hacc
      | some v =>
          by_cases hcap : MAX_VARIANTS ≤ (acc ++ [v]).length
          · have hlen : (acc ++ [v]).length = MAX_VARIANTS := by
              simp only [List.length_append, List.length_cons,
                List.length_nil] at hcap ⊢
              omega
            have hfull : MAX_VARIANTS
                ≤ (acc ++ v :: rest.filterMap (fun e => e.node)).length := by
              simp only [List.length_append, List.length_cons,
                List.length_nil] at hlen ⊢
              omega
            simp only [pushEdges, if_pos hcap, List.filterMap_cons]
            rw [if_pos hfull]
            have hsplit : acc ++ v :: rest.filterMap (fun e => e.node)
                = (acc ++ [v]) ++ rest.filterMap (fun e => e.node) := by simp
            rw [hsplit, List.take_left' hlen]
          · have hlt : (acc ++ [v]).length < MAX_VARIANTS := Nat.not_le.mp hcap
            simp only [pushEdges, if_neg hcap, List.filterMap_cons]
            rw [ih (acc ++ [v]) hlt]
            have hsplit : acc ++ v :: rest.filterMap (fun e => e.node)
                = (acc ++ [v]) ++ rest.filterMap (fun e => e.node) := by simp
            rw [hsplit]

theorem collectAll_prefix {ν : Type} (pages : Option String → VariantPage ν)
    (fuel : Nat) :
    ∀ (acc : List ν) (after : Option String) (l : List ν),
      collectAll pages fuel acc after = some l → ∃ rest, l = acc ++ rest := by
  induction fuel with
  | zero =>
      intro acc after l h
      simp [collectAll] at h
  | succ n ih =>
      intro acc after l h
      simp only [collectAll] at h
      by_cases hnp : (pages after).hasNextPage = false
      · rw [if_pos hnp] at h
        exact ⟨_, (Option.some.inj h).symm⟩
      · rw [if_neg hnp] at h
        by_cases hcur :
            strTruthy ((pages after).edges.getLast?.bind (fun e => e.cursor)) = false
        · rw [if_pos hcur] at h
          exact ⟨_, (Option.some.inj h).symm⟩
        · rw [if_neg hcur] at h
          obtain ⟨rest, hrest⟩ := ih _ _ _ h
          exact ⟨(pages after).edges.filterMap (fun e => e.node) ++ rest,
            by simp [hrest]⟩

theorem fetchAllLoop_refines {ν : Type} (pages : Option String → VariantPage ν)
    (fuel : Nat) :
    ∀ (acc : List ν) (after : Option String) (l : List ν),
      acc.length < MAX_VARIANTS →
      collectAll pages fuel acc after = some l →
      fetchAllLoop pages fuel acc after = some
        (if MAX_VARIANTS ≤ l.length
         then { variants := l.take MAX_VARIANTS, truncated := true
                max := MAX_VARIANTS }
         else { variants := l, truncated := false, max := MAX_VARIANTS }) := by
  induction fuel with
  | zero =>
      intro acc after l hacc h
      simp [collectAll] at h
  | succ n ih =>
      intro acc after l hacc h
      simp only [collectAll] at h
      have hchar := pushEdges_char (pages after).edges acc hacc
      by_cases hcap : MAX_VARIANTS
          ≤ (acc ++ (pages after).edges.filterMap (fun e => e.node)).length
      · rw [if_pos hcap] at hchar
        have hloop : fetchAllLoop pages (n + 1) acc after = some
            { variants :=
                (acc ++ (pages after).edges.filterMap (fun e => e.node)).take
                  MAX_VARIANTS
              truncated := true, max := MAX_VARIANTS } := by
          simp only [fetchAllLoop, hchar]
        rw [hloop]
        by_cases hnp : (pages after).hasNextPage = false
        · rw [if_pos hnp] at h
          have hl := (Option.some.inj h).symm
          subst hl
          rw [if_pos hcap]
        · rw [if_neg hnp] at h
          by_cases hcur :
              strTruthy ((pages after).edges.getLast?.bind (fun e => e.cursor))
                = false
          · rw [if_pos hcur] at h
            have hl := (Option.some.inj h).symm
            subst hl
            rw [if_pos hcap]
          · rw [if_neg hcur] at h
            obtain ⟨rest, hrest⟩ := collectAll_prefix pages n _ _ _ h
            subst hrest
            have hlcap : MAX_VARIANTS
                ≤ ((acc ++ (pages after).edges.filterMap (fun e => e.node))
                    ++ rest).length := by
              simp only [List.length_append] at hcap ⊢
              omega
            rw [if_pos hlcap, List.take_append_of_le_length hcap]
      · rw [if_neg hcap] at hchar
        have hlt := Nat.not_le.mp hcap
        by_cases hnp : (pages after).hasNextPage = false
        · rw [if_pos hnp] at h
          have hl := (Option.some.inj h).symm
          subst hl
          simp only [fetchAllLoop, hchar, if_pos hnp]
          rw [if_neg (Nat.not_le.mpr hlt)]
        · rw [if_neg hnp] at h
          by_cases hcur :
              strTruthy ((pages after).edges.getLast?.bind (fun e => e.cursor))
                = false
          · rw [if_pos hcur] at h
            have hl := (Option.some.inj h).symm
            subst hl
            simp only [fetchAllLoop, hchar, if_neg hnp, if_pos hcur]
            rw [if_neg (Nat.not_le.mpr hlt)]
          · rw [if_neg hcur] at h
            simp only [fetchAllLoop, hchar, if_neg hnp, if_neg hcur]
            exact ih _ _ _ hlt h

theorem fetchAllLoop_le {ν : Type} (pages : Option String → VariantPage ν)
    (fuel : Nat) :
    ∀ (acc : List ν) (after : Option String) (r : FetchAllResult ν),
      acc.length < MAX_VARIANTS →
      fetchAllLoop pages fuel acc after = some r →
      r.variants.length ≤ MAX_VARIANTS := by
  induction fuel with
  | zero =>
      intro acc after r hacc h
      simp [fetchAllLoop] at h
  | succ n ih =>
      intro acc after r hacc h
      have hchar := pushEdges_char (pages after).edges acc hacc
      by_cases hcap : MAX_VARIANTS
          ≤ (acc ++ (pages after).edges.filterMap (fun e => e.node)).length
      · rw [if_pos hcap] at hchar
        simp only [fetchAllLoop, hchar] at h
        have hr := (Option.some.inj h).symm
        subst hr
        simp [List.length_take]
      · rw [if_neg hcap] at hchar
        have hlt := Nat.not_le.mp hcap
        simp only [fetchAllLoop, hchar] at h
        by_cases hnp : (pages after).hasNextPage = false
        · rw [if_pos hnp] at h
          have hr := (Option.some.inj h).symm
          subst hr
          exact hlt.le
        · rw [if_neg hnp] at h
          by_cases hcur :
              strTruthy ((pages after).edges.getLast?.bind (fun e => e.cursor))
                = false
          · rw [if_pos hcur] at h
            have hr := (Option.some.inj h).symm
            subst hr
            exact hlt.le
          · rw [if_neg hcur] at h
            exact ih _ _ _ hlt h

/-- C8: whenever the upstream cursor chain is exhausted within the page
budget offering the item list `l`, `fetchAllActiveVariants` returns exactly
the first 5000 items with `truncated = true` when `l` holds 5000 or more
items, and all of `l` with `truncated = false` when the upstream is exhausted
below the cap; and no returned result ever holds more than 5000 items. -/
theorem fetchAll_cap {ν : Type} (pages : Option String → VariantPage ν)
    (fuel : Nat) (l : List ν) (h : collectAll pages fuel [] none = some l) :
    fetchAllActiveVariants pages fuel = some
      (if MAX_VARIANTS ≤ l.length
       then { variants := l.take MAX_VARIANTS, truncated := true
              max := MAX_VARIANTS }
       else { variants := l, truncated := false, max := MAX_VARIANTS })
    ∧ ∀ (pages2 : Option String → VariantPage ν) (fuel2 : Nat)
        (r : FetchAllResult ν),
        fetchAllActiveVariants pages2 fuel2 = some r →
        r.variants.length ≤ MAX_VARIANTS := by
  constructor
  · exact fetchAllLoop_refines pages fuel [] none l (by norm_num [MAX_VARIANTS]) h
  · intro pages2 fuel2 r hr
    exact fetchAllLoop_le pages2 fuel2 [] none r (by norm_num [MAX_VARIANTS]) hr

/-- Witness for `fetchAll_cap`: one exhausted page holding one variant. -/
theorem fetchAll_cap_witness :
    fetchAllActiveVariants
        (fun _ => ({ edges := [{ cursor := none, node := some "a" }]
                     hasNextPage := false } : VariantPage String)) 1
      = some (if MAX_VARIANTS ≤ (["a"] : List String).length
              then { variants := (["a"] : List String).take MAX_VARIANTS
                     truncated := true, max := MAX_VARIANTS }
              else { variants := ["a"], truncated := false
                     max := MAX_VARIANTS }) :=
  (fetchAll_cap
    (fun _ => ({ edges := [{ cursor := none, node := some "a" }]
                 hasNextPage := false } : VariantPage String)) 1 ["a"] rfl).1

/-! ## C9: HTTP statuses of the action -/

/-- An environment with authentication succeeding and every sub-operation
available. -/
def c9Env : ActionEnv :=
  { authResponseStatus := none, urlShop := none
    sessionShop := some "demo.myshopify.com", stockyApiKey := "key-1"
    newRunId := "run-1"
    fullSyncRun := Except.ok
      { done := true, offset := 0, scannedOrders := 0, itemsProcessed := 0
        message := "Full Sync complete.", suggestedNextPollMs := 0 }
    quickSyncRun := Except.ok { scannedOrders := 0, itemsProcessed := 0 }
    reportStartRun := Except.ok
      { done := false, processedOrders := 0, progressMessage := none }
    reportContinueRun := Except.ok
      { done := false, processedOrders := 0, progressMessage := none }
    finalizeRun := Except.ok
      { rowsCount := 0, truncated := false, maxVariants := 5000 } }

/-- The same environment with `STOCKY_API_KEY` unset. -/
def c9EnvNoKey : ActionEnv := { c9Env with stockyApiKey := "" }

/-- C9 counterexample: the action responds with HTTP status 200, not 400, to
invalid input (negative `periodQtySoldLTE`), and with status 200, not 500, to
a Stocky sync intent submitted while `STOCKY_API_KEY` is unset — the plain
data bodies it returns carry the failure only in the `error` field. -/
theorem action_status_counterexample :
    returnedError (actionFn c9Env
        [("intent", "reportStart"), ("periodQtySoldLTE", "-1"),
         ("lookBackDays", "30")]) = some "Invalid input values."
    ∧ httpStatusOf (actionFn c9Env
        [("intent", "reportStart"), ("periodQtySoldLTE", "-1"),
         ("lookBackDays", "30")]) = 200
    ∧ returnedError (actionFn c9EnvNoKey [("intent", "stockyQuickSync")])
        = some "STOCKY_API_KEY is not set."
    ∧ httpStatusOf (actionFn c9EnvNoKey [("intent", "stockyQuickSync")]) = 200
    ∧ (200 : Nat) ≠ 400 ∧ (200 : Nat) ≠ 500 := by decide

/-- C9 (amended): with authentication succeeding, the action responds with
HTTP status 200 in every handled case — invalid input and unset configuration
are signalled through the `error` field of the JSON body, not through 400 or
500 — and the body carries exactly one of `report|fullSync|message|error`,
with `inputs` present except on caught-exception paths, which carry `error`. -/
theorem action_status_amended (env : ActionEnv) (form : List (String × String))
    (hauth : env.authResponseStatus = none) :
    httpStatusOf (actionFn env form) = 200
    ∧ ∃ b, actionFn env form = ActionReturn.data b ∧ presentCount b = 1
        ∧ (b.inputs = none → b.error.isSome = true) := by
  have key : ∃ b, actionFn env form = ActionReturn.data b ∧ presentCount b = 1
      ∧ (b.inputs = none → b.error.isSome = true) := by
    simp only [actionFn, hauth]
    repeat' split
    all_goals
      exact ⟨_, rfl, by simp [presentCount, emptyBody], by simp [emptyBody]⟩
  obtain ⟨b, hb, h1, h2⟩ := key
  exact ⟨by rw [hb]; rfl, b, hb, h1, h2⟩

/-- Witness for `action_status_amended`. -/
theorem action_status_amended_witness :
    httpStatusOf (actionFn c9Env [("intent", "reportStart")]) = 200 :=
  (action_status_amended c9Env [("intent", "reportStart")] rfl).1

/-! ## C10: toInt defaults and input validation -/

/-- C10: a form submission whose `periodQtySoldLTE` or `lookBackDays` is
missing or not parseable as a decimal integer is not rejected — `toInt`
substitutes the defaults 0 and 60 — and the `"Invalid input values."` error
is returned exactly when the parsed `periodQtySoldLTE` is negative or the
parsed `lookBackDays` is zero or negative; in particular a form missing both
fields is never rejected. (The sub-operations are assumed not to throw an
exception whose message is itself `"Invalid input values."`.) -/
theorem toInt_defaults_validation (env : ActionEnv)
    (form : List (String × String))
    (hauth : env.authResponseStatus = none)
    (hshop : (jsOr env.urlShop env.sessionShop).isSome = true)
    (hintent : jsOrStr (alookup form "intent") "reportStart" = "reportStart")
    (hsub : ∀ e, env.reportStartRun = Except.error e →
      e ≠ "Invalid input values.") :
    (∀ (v : Option String) (fb : Int),
        jsParseInt (v.getD "") = none → toInt v fb = fb)
    ∧ (returnedError (actionFn env form) = some "Invalid input values."
        ↔ (toInt (alookup form "periodQtySoldLTE") 0 < 0
            ∨ toInt (alookup form "lookBackDays") 60 ≤ 0))
    ∧ (alookup form "periodQtySoldLTE" = none →
        alookup form "lookBackDays" = none →
        returnedError (actionFn env form) ≠ some "Invalid input values.") := by
  obtain ⟨s, hs⟩ := Option.isSome_iff_exists.mp hshop
  have hiff : returnedError (actionFn env form) = some "Invalid input values."
      ↔ (toInt (alookup form "periodQtySoldLTE") 0 < 0
          ∨ toInt (alookup form "lookBackDays") 60 ≤ 0) := by
    by_cases hval : toInt (alookup form "periodQtySoldLTE") 0 < 0
        ∨ toInt (alookup form "lookBackDays") 60 ≤ 0
    · have herr : returnedError (actionFn env form)
          = some "Invalid input values." := by
        simp [actionFn, returnedError, hauth, hs, hintent, hval, emptyBody]
      simp [herr, hval]
    · cases henv : env.reportStartRun with
      | ok p =>
          have herr : returnedError (actionFn env form) = none := by
            simp [actionFn, returnedError, hauth, hs, hintent, hval, henv,
              emptyBody]
          simp [herr, hval]
      | error e =>
          have herr : returnedError (actionFn env form) = some e := by
            simp [actionFn, returnedError, hauth, hs, hintent, hval, henv,
              emptyBody]
          have hne := hsub e henv
          simp [herr, hval, hne]
  refine ⟨fun v fb h => by simp [toInt, h], hiff, ?_⟩
  intro h1 h2
  rw [Ne, hiff]
  have hv1 : toInt (alookup form "periodQtySoldLTE") 0 = 0 := by rw [h1]; rfl
  have hv2 : toInt (alookup form "lookBackDays") 60 = 60 := by rw [h2]; rfl
  rw [hv1, hv2]
  decide

/-- Environment for the C10 witness: report start succeeds. -/
def c10Env : ActionEnv :=
  { authResponseStatus := none, urlShop := none
    sessionShop := some "demo.myshopify.com", stockyApiKey := "key-1"
    newRunId := "run-1"
    fullSyncRun := Except.error "unused"
    quickSyncRun := Except.error "unused"
    reportStartRun := Except.ok
      { done := false, processedOrders := 0, progressMessage := none }
    reportContinueRun := Except.error "unused"
    finalizeRun := Except.error "unused" }

/-- Witness for `toInt_defaults_validation`: an empty form is not rejected. -/
theorem toInt_defaults_validation_witness :
    returnedError (actionFn c10Env []) = some "Invalid input values."
      ↔ (toInt (alookup ([] : List (String × String)) "periodQtySoldLTE") 0 < 0
          ∨ toInt (alookup ([] : List (String × String)) "lookBackDays") 60
              ≤ 0) :=
  (toInt_defaults_validation c10Env [] rfl rfl rfl
    (fun _ he => nomatch he)).2.1

end RestockingReport
